import Mathlib

/-!
Shallow embedding of the TinyScript front end (lexer, parser, semantic
analyzer) and proofs about it.

Conventions used throughout:
* The Rust lexer keeps `(input, position, current_char)`; here a lexer state
  is represented by the list of characters not yet consumed, with
  `current_char` at the head (the two representations are isomorphic:
  the list is `current_char` followed by `input[position..]`).
* A Rust `panic!` (unexpected character, unterminated string, i64 overflow,
  `unwrap` on an empty scope stack) is modelled as `none`; recoverable
  `Result<_, String>` values are modelled as `Except String _`.
* `format!`-built error strings are reproduced exactly, using `reprTok`,
  `reprTy` and `reprAST`, which mirror the derived Rust `Debug` output.
* The parser and the token-collection driver are given explicit fuel
  (first `Nat` argument); `none` also stands for fuel exhaustion, which
  never happens for sufficiently large fuel.
-/

namespace TinyScript

/-- Token type of the lexer (`lexer.rs`, `enum Token`). -/
inductive Token where
  | Let
  | If
  | Fn
  | Else
  | While
  | Return
  | Identifier (name : String)
  | Integer (value : Int)
  | StringLiteral (value : String)
  | Plus
  | Minus
  | Star
  | Slash
  | Equal
  | NotEqual
  | LessThan
  | GreaterThan
  | LParen
  | RParen
  | LBrace
  | RBrace
  | Comma
  | Semicolon
  | EOF
deriving DecidableEq, Repr

/-- Escape of a single character as in Rust's `Debug` formatting of strings
(enough for the characters that can appear in this development). -/
def rustEscapeChar (c : Char) : String :=
  if c = '\x22' then "\\\""
  else if c = '\\' then "\\\\"
  else if c = '\n' then "\\n"
  else if c = '\t' then "\\t"
  else if c = '\r' then "\\r"
  else String.mk [c]

/-- Rust `Debug` rendering of a `String` value (quoted, escaped). -/
def rustDebugString (s : String) : String :=
  "\"" ++ String.join (s.data.map rustEscapeChar) ++ "\""

/-- Rust `Debug` rendering of a `Token`, as produced by `{:?}` in the
`format!` calls of the parser and the type checker. -/
def reprTok : Token → String
  | .Let => "Let"
  | .If => "If"
  | .Fn => "Fn"
  | .Else => "Else"
  | .While => "While"
  | .Return => "Return"
  | .Identifier name => "Identifier(" ++ rustDebugString name ++ ")"
  | .Integer value => "Integer(" ++ toString value ++ ")"
  | .StringLiteral value => "StringLiteral(" ++ rustDebugString value ++ ")"
  | .Plus => "Plus"
  | .Minus => "Minus"
  | .Star => "Star"
  | .Slash => "Slash"
  | .Equal => "Equal"
  | .NotEqual => "NotEqual"
  | .LessThan => "LessThan"
  | .GreaterThan => "GreaterThan"
  | .LParen => "LParen"
  | .RParen => "RParen"
  | .LBrace => "LBrace"
  | .RBrace => "RBrace"
  | .Comma => "Comma"
  | .Semicolon => "Semicolon"
  | .EOF => "EOF"

/-- Loop of `Lexer::string_literal` (`lexer.rs` lines 210-218): consume
characters until a closing quote; running out of input is the Rust
`panic!("Unterminated string literal")`, modelled as `none`. -/
def string_literal_loop : List Char → List Char → Option (Token × List Char)
  | [], _ => none
  | c :: rest, acc =>
    if c = '\x22' then some (.StringLiteral (String.mk acc.reverse), rest)
    else string_literal_loop rest (c :: acc)

/-- Embedding of `Lexer::string_literal` (`lexer.rs` lines 206-221): the
state still has the opening quote as current character; it is skipped
(`self.advance()`) and the loop runs on the remaining characters. -/
def string_literal : List Char → Option (Token × List Char)
  | [] => none
  | _ :: rest => string_literal_loop rest []

/-- Loop of `Lexer::identifier` (`lexer.rs` lines 171-178): consume a maximal
run of alphanumeric characters and underscores, returning the collected text
and the rest of the input. -/
def identifier_loop : List Char → List Char → String × List Char
  | [], acc => (String.mk acc.reverse, [])
  | c :: rest, acc =>
    if c.isAlphanum ∨ c = '_' then identifier_loop rest (c :: acc)
    else (String.mk acc.reverse, c :: rest)

/-- Embedding of `Lexer::identifier` (`lexer.rs` lines 168-189): collect the
identifier text and map the exact keywords to keyword tokens. -/
def identifier (cs : List Char) : Token × List Char :=
  let (result, rest) := identifier_loop cs []
  match result with
  | "let" => (.Let, rest)
  | "fn" => (.Fn, rest)
  | "if" => (.If, rest)
  | "else" => (.Else, rest)
  | "while" => (.While, rest)
  | "return" => (.Return, rest)
  | _ => (.Identifier result, rest)

/-- Loop of `Lexer::integer_literal` (`lexer.rs` lines 194-201): consume a
maximal run of decimal digits, returning the digit characters and the rest. -/
def integer_literal_loop : List Char → List Char → List Char × List Char
  | [], acc => (acc.reverse, [])
  | c :: rest, acc =>
    if c.isDigit then integer_literal_loop rest (c :: acc)
    else (acc.reverse, c :: rest)

/-- Numeric value of a digit run, most significant digit first. -/
def digitsVal (ds : List Char) : Nat :=
  ds.foldl (fun n c => n * 10 + (c.toNat - 48)) 0

/-- Embedding of `Lexer::integer_literal` (`lexer.rs` lines 191-204):
`result.parse::<i64>().unwrap()` panics (here `none`) when the digit run
exceeds the i64 range. -/
def integer_literal (cs : List Char) : Option (Token × List Char) :=
  let (digits, rest) := integer_literal_loop cs []
  if digitsVal digits ≤ 9223372036854775807 then
    some (.Integer (Int.ofNat (digitsVal digits)), rest)
  else none

/-- Embedding of `Lexer::get_next_token` (`lexer.rs` lines 75-166): skip
whitespace, map single characters to operator and delimiter tokens, and
dispatch to the literal and identifier scanners. An unexpected character is
the Rust `panic!`, modelled as `none`; an exhausted input yields `EOF`. -/
def get_next_token : List Char → Option (Token × List Char)
  | [] => some (.EOF, [])
  | c :: rest =>
    if c = ' ' ∨ c = '\t' ∨ c = '\n' ∨ c = '\r' then get_next_token rest
    else if c = '+' then some (.Plus, rest)
    else if c = '-' then some (.Minus, rest)
    else if c = '*' then some (.Star, rest)
    else if c = '/' then some (.Slash, rest)
    else if c = '=' then some (.Equal, rest)
    else if c = '>' then some (.GreaterThan, rest)
    else if c = '<' then some (.LessThan, rest)
    else if c = '!' then some (.NotEqual, rest)
    else if c = '(' then some (.LParen, rest)
    else if c = ')' then some (.RParen, rest)
    else if c = '\x7b' then some (.LBrace, rest)
    else if c = '\x7d' then some (.RBrace, rest)
    else if c = ',' then some (.Comma, rest)
    else if c = ';' then some (.Semicolon, rest)
    else if c = '\x22' then string_literal (c :: rest)
    else if '0' ≤ c ∧ c ≤ '9' then integer_literal (c :: rest)
    else if ('a' ≤ c ∧ c ≤ 'z') ∨ ('A' ≤ c ∧ c ≤ 'Z') ∨ c = '_' then
      some (identifier (c :: rest))
    else none

/-- Token-collection loop of `main.rs` (lines 60-66): call `get_next_token`
until `EOF`, pushing every non-`EOF` token; the `EOF` marker itself is not
stored. Fuel `s.length + 1` always suffices since every emitted token
consumes at least one character. -/
def collect_tokens : Nat → List Char → List Token → Option (List Token)
  | 0, _, _ => none
  | fuel + 1, cs, acc =>
    match get_next_token cs with
    | none => none
    | some (.EOF, _) => some acc
    | some (tok, rest) => collect_tokens fuel rest (acc ++ [tok])

/-- Scanning driver: source string to token vector (without the `EOF`
marker), as collected by `main.rs`. -/
def tokenize (s : String) : Option (List Token) :=
  collect_tokens (s.length + 1) s.data []

/-- AST node type of the parser (`parser.rs`, `enum ASTNode`). -/
inductive ASTNode where
  | Program (stmts : List ASTNode)
  | StmtList (stmts : List ASTNode)
  | LetStmt (name : String) (expr : ASTNode)
  | IfStmt (cond : ASTNode) (thenBranch : ASTNode) (elseBranch : Option ASTNode)
  | WhileStmt (cond : ASTNode) (body : ASTNode)
  | ReturnStmt (expr : ASTNode)
  | Block (stmts : List ASTNode)
  | ExprStmt (expr : ASTNode)
  | BinaryOp (left : ASTNode) (op : Token) (right : ASTNode)
  | Identifier (name : String)
  | Integer (value : Int)
  | StringLiteral (value : String)

mutual

/-- Rust `Debug` rendering of an `ASTNode`, as produced by `{:?}` in the
type checker's catch-all error message. -/
def reprAST : ASTNode → String
  | .Program stmts => "Program(" ++ reprASTList stmts ++ ")"
  | .StmtList stmts => "StmtList(" ++ reprASTList stmts ++ ")"
  | .LetStmt name expr => "LetStmt(" ++ rustDebugString name ++ ", " ++ reprAST expr ++ ")"
  | .IfStmt cond thenBranch none =>
      "IfStmt(" ++ reprAST cond ++ ", " ++ reprAST thenBranch ++ ", None)"
  | .IfStmt cond thenBranch (some elseBranch) =>
      "IfStmt(" ++ reprAST cond ++ ", " ++ reprAST thenBranch ++ ", Some(" ++ reprAST elseBranch ++ "))"
  | .WhileStmt cond body => "WhileStmt(" ++ reprAST cond ++ ", " ++ reprAST body ++ ")"
  | .ReturnStmt expr => "ReturnStmt(" ++ reprAST expr ++ ")"
  | .Block stmts => "Block(" ++ reprASTList stmts ++ ")"
  | .ExprStmt expr => "ExprStmt(" ++ reprAST expr ++ ")"
  | .BinaryOp left op right =>
      "BinaryOp(" ++ reprAST left ++ ", " ++ reprTok op ++ ", " ++ reprAST right ++ ")"
  | .Identifier name => "Identifier(" ++ rustDebugString name ++ ")"
  | .Integer value => "Integer(" ++ toString value ++ ")"
  | .StringLiteral value => "StringLiteral(" ++ rustDebugString value ++ ")"

/-- Rust `Debug` rendering of a `Vec<ASTNode>` (bracketed, comma-separated). -/
def reprASTList : List ASTNode → String
  | [] => "[]"
  | a :: rest => "[" ++ reprAST a ++ reprASTListTail rest ++ "]"

/-- Tail part of the `Vec<ASTNode>` rendering. -/
def reprASTListTail : List ASTNode → String
  | [] => ""
  | a :: rest => ", " ++ reprAST a ++ reprASTListTail rest

end

namespace Parser

/-!
The Rust `Parser` struct holds an immutable token vector and a mutable
cursor `current_token`. Each method below takes the token vector and the
cursor explicitly and returns the new cursor; the recursive parse methods
additionally take fuel (first `Nat` argument) and return
`Option (Except String (ASTNode × Nat))`, where `none` is fuel exhaustion
(the Rust functions terminate, so large enough fuel never hits it).
-/

/-- Result of a fueled parse method: `none` is fuel exhaustion, an `ok`
carries the node produced and the new cursor position. -/
abbrev PRes := Option (Except String (ASTNode × Nat))

/-- Embedding of `Parser::current` (`parser.rs` lines 38-44): the token at
the cursor, or a synthesized `EOF` once the cursor passes the end. -/
def current (tokens : List Token) (pos : Nat) : Token :=
  if h : pos < tokens.length then tokens[pos] else .EOF

/-- Embedding of `Parser::advance` (`parser.rs` lines 32-36): increment the
cursor while it is still inside the vector. -/
def advance (tokens : List Token) (pos : Nat) : Nat :=
  if pos < tokens.length then pos + 1 else pos

/-- Embedding of `Parser::expect` (`parser.rs` lines 46-53): consume the
expected token or fail with a message naming the expected and found tokens. -/
def expect (tokens : List Token) (pos : Nat) (expected : Token) : Except String Nat :=
  if current tokens pos = expected then .ok (advance tokens pos)
  else .error ("Expected " ++ reprTok expected ++ ", found " ++ reprTok (current tokens pos))

mutual

/-- Embedding of `Parser::parse_program` (`parser.rs` lines 55-57). -/
def parse_program (tokens : List Token) : Nat → Nat → PRes
  | 0, _ => none
  | fuel + 1, pos => parse_stmt_list tokens fuel pos
termination_by structural fuel pos => fuel

/-- Embedding of `Parser::parse_stmt_list` (`parser.rs` lines 59-65). -/
def parse_stmt_list (tokens : List Token) : Nat → Nat → PRes
  | 0, _ => none
  | fuel + 1, pos => stmt_list_loop tokens fuel pos []
termination_by structural fuel pos => fuel

/-- While-loop of `parse_stmt_list`: parse statements until `EOF` or a
closing brace, accumulating them in order. -/
def stmt_list_loop (tokens : List Token) : Nat → Nat → List ASTNode → PRes
  | 0, _, _ => none
  | fuel + 1, pos, stmts =>
    if current tokens pos ≠ .EOF ∧ current tokens pos ≠ .RBrace then
      match parse_stmt tokens fuel pos with
      | none => none
      | some (.error e) => some (.error e)
      | some (.ok (s, pos1)) => stmt_list_loop tokens fuel pos1 (stmts ++ [s])
    else some (.ok (.StmtList stmts, pos))
termination_by structural fuel pos stmts => fuel

/-- Embedding of `Parser::parse_stmt` (`parser.rs` lines 67-76). -/
def parse_stmt (tokens : List Token) : Nat → Nat → PRes
  | 0, _ => none
  | fuel + 1, pos =>
    match current tokens pos with
    | .Let => parse_let_stmt tokens fuel pos
    | .If => parse_if_stmt tokens fuel pos
    | .While => parse_while_stmt tokens fuel pos
    | .Return => parse_return_stmt tokens fuel pos
    | .LBrace => parse_block tokens fuel pos
    | _ => parse_expr_stmt tokens fuel pos
termination_by structural fuel pos => fuel

/-- Embedding of `Parser::parse_let_stmt` (`parser.rs` lines 78-90). -/
def parse_let_stmt (tokens : List Token) : Nat → Nat → PRes
  | 0, _ => none
  | fuel + 1, pos =>
    match expect tokens pos .Let with
    | .error e => some (.error e)
    | .ok pos1 =>
      match current tokens pos1 with
      | .Identifier name =>
        let pos2 := advance tokens pos1
        match expect tokens pos2 .Equal with
        | .error e => some (.error e)
        | .ok pos3 =>
          match parse_expr tokens fuel pos3 with
          | none => none
          | some (.error e) => some (.error e)
          | some (.ok (expr, pos4)) =>
            match expect tokens pos4 .Semicolon with
            | .error e => some (.error e)
            | .ok pos5 => some (.ok (.LetStmt name expr, pos5))
      | _ => some (.error "Expected identifier")
termination_by structural fuel pos => fuel

/-- Embedding of `Parser::parse_if_stmt` (`parser.rs` lines 92-105). -/
def parse_if_stmt (tokens : List Token) : Nat → Nat → PRes
  | 0, _ => none
  | fuel + 1, pos =>
    match expect tokens pos .If with
    | .error e => some (.error e)
    | .ok pos1 =>
      match expect tokens pos1 .LParen with
      | .error e => some (.error e)
      | .ok pos2 =>
        match parse_expr tokens fuel pos2 with
        | none => none
        | some (.error e) => some (.error e)
        | some (.ok (condition, pos3)) =>
          match expect tokens pos3 .RParen with
          | .error e => some (.error e)
          | .ok pos4 =>
            match parse_stmt tokens fuel pos4 with
            | none => none
            | some (.error e) => some (.error e)
            | some (.ok (thenBranch, pos5)) =>
              if current tokens pos5 = .Else then
                match parse_stmt tokens fuel (advance tokens pos5) with
                | none => none
                | some (.error e) => some (.error e)
                | some (.ok (elseBranch, pos6)) =>
                  some (.ok (.IfStmt condition thenBranch (some elseBranch), pos6))
              else some (.ok (.IfStmt condition thenBranch none, pos5))
termination_by structural fuel pos => fuel

/-- Embedding of `Parser::parse_while_stmt` (`parser.rs` lines 107-114). -/
def parse_while_stmt (tokens : List Token) : Nat → Nat → PRes
  | 0, _ => none
  | fuel + 1, pos =>
    match expect tokens pos .While with
    | .error e => some (.error e)
    | .ok pos1 =>
      match expect tokens pos1 .LParen with
      | .error e => some (.error e)
      | .ok pos2 =>
        match parse_expr tokens fuel pos2 with
        | none => none
        | some (.error e) => some (.error e)
        | some (.ok (condition, pos3)) =>
          match expect tokens pos3 .RParen with
          | .error e => some (.error e)
          | .ok pos4 =>
            match parse_stmt tokens fuel pos4 with
            | none => none
            | some (.error e) => some (.error e)
            | some (.ok (body, pos5)) => some (.ok (.WhileStmt condition body, pos5))
termination_by structural fuel pos => fuel

/-- Embedding of `Parser::parse_return_stmt` (`parser.rs` lines 116-121). -/
def parse_return_stmt (tokens : List Token) : Nat → Nat → PRes
  | 0, _ => none
  | fuel + 1, pos =>
    match expect tokens pos .Return with
    | .error e => some (.error e)
    | .ok pos1 =>
      match parse_expr tokens fuel pos1 with
      | none => none
      | some (.error e) => some (.error e)
      | some (.ok (expr, pos2)) =>
        match expect tokens pos2 .Semicolon with
        | .error e => some (.error e)
        | .ok pos3 => some (.ok (.ReturnStmt expr, pos3))
termination_by structural fuel pos => fuel

/-- Embedding of `Parser::parse_block` (`parser.rs` lines 123-131). -/
def parse_block (tokens : List Token) : Nat → Nat → PRes
  | 0, _ => none
  | fuel + 1, pos =>
    match expect tokens pos .LBrace with
    | .error e => some (.error e)
    | .ok pos1 => block_loop tokens fuel pos1 []
termination_by structural fuel pos => fuel

/-- While-loop of `parse_block`: parse statements until a closing brace,
then consume the brace. -/
def block_loop (tokens : List Token) : Nat → Nat → List ASTNode → PRes
  | 0, _, _ => none
  | fuel + 1, pos, stmts =>
    if current tokens pos ≠ .RBrace then
      match parse_stmt tokens fuel pos with
      | none => none
      | some (.error e) => some (.error e)
      | some (.ok (s, pos1)) => block_loop tokens fuel pos1 (stmts ++ [s])
    else
      match expect tokens pos .RBrace with
      | .error e => some (.error e)
      | .ok pos1 => some (.ok (.Block stmts, pos1))
termination_by structural fuel pos stmts => fuel

/-- Embedding of `Parser::parse_expr_stmt` (`parser.rs` lines 133-137). -/
def parse_expr_stmt (tokens : List Token) : Nat → Nat → PRes
  | 0, _ => none
  | fuel + 1, pos =>
    match parse_expr tokens fuel pos with
    | none => none
    | some (.error e) => some (.error e)
    | some (.ok (expr, pos1)) =>
      match expect tokens pos1 .Semicolon with
      | .error e => some (.error e)
      | .ok pos2 => some (.ok (.ExprStmt expr, pos2))
termination_by structural fuel pos => fuel

/-- Embedding of `Parser::parse_expr` (`parser.rs` lines 139-148): one flat
left-associative tier for `+ - > < = !` above the term tier. -/
def parse_expr (tokens : List Token) : Nat → Nat → PRes
  | 0, _ => none
  | fuel + 1, pos =>
    match parse_term tokens fuel pos with
    | none => none
    | some (.error e) => some (.error e)
    | some (.ok (node, pos1)) => expr_loop tokens fuel pos1 node
termination_by structural fuel pos => fuel

/-- While-loop of `parse_expr`: fold further terms into a left-nested
`BinaryOp` chain while the current token is one of the six operators. -/
def expr_loop (tokens : List Token) : Nat → Nat → ASTNode → PRes
  | 0, _, _ => none
  | fuel + 1, pos, node =>
    match current tokens pos with
    | .Plus | .Minus | .GreaterThan | .LessThan | .Equal | .NotEqual =>
      match parse_term tokens fuel (advance tokens pos) with
      | none => none
      | some (.error e) => some (.error e)
      | some (.ok (right, pos1)) =>
        expr_loop tokens fuel pos1 (.BinaryOp node (current tokens pos) right)
    | _ => some (.ok (node, pos))
termination_by structural fuel pos node => fuel

/-- Embedding of `Parser::parse_term` (`parser.rs` lines 150-159): the
left-associative `* /` tier. -/
def parse_term (tokens : List Token) : Nat → Nat → PRes
  | 0, _ => none
  | fuel + 1, pos =>
    match parse_factor tokens fuel pos with
    | none => none
    | some (.error e) => some (.error e)
    | some (.ok (node, pos1)) => term_loop tokens fuel pos1 node
termination_by structural fuel pos => fuel

/-- While-loop of `parse_term`: fold further factors into a left-nested
`BinaryOp` chain while the current token is `*` or `/`. -/
def term_loop (tokens : List Token) : Nat → Nat → ASTNode → PRes
  | 0, _, _ => none
  | fuel + 1, pos, node =>
    match current tokens pos with
    | .Star | .Slash =>
      match parse_factor tokens fuel (advance tokens pos) with
      | none => none
      | some (.error e) => some (.error e)
      | some (.ok (right, pos1)) =>
        term_loop tokens fuel pos1 (.BinaryOp node (current tokens pos) right)
    | _ => some (.ok (node, pos))
termination_by structural fuel pos node => fuel

/-- Embedding of `Parser::parse_factor` (`parser.rs` lines 161-186):
parenthesized expression, identifier, integer or string literal; anything
else is the fixed error `"Unexpected token in factor"`. -/
def parse_factor (tokens : List Token) : Nat → Nat → PRes
  | 0, _ => none
  | fuel + 1, pos =>
    match current tokens pos with
    | .LParen =>
      match parse_expr tokens fuel (advance tokens pos) with
      | none => none
      | some (.error e) => some (.error e)
      | some (.ok (node, pos1)) =>
        match expect tokens pos1 .RParen with
        | .error e => some (.error e)
        | .ok pos2 => some (.ok (node, pos2))
    | .Identifier name => some (.ok (.Identifier name, advance tokens pos))
    | .Integer value => some (.ok (.Integer value, advance tokens pos))
    | .StringLiteral value => some (.ok (.StringLiteral value, advance tokens pos))
    | _ => some (.error "Unexpected token in factor")
termination_by structural fuel pos => fuel

end

end Parser

/-- Type enumeration of the semantic analyzer (`typecheck.rs`, `enum Type`;
named `Ty` here because `Type` is a Lean universe). -/
inductive Ty where
  | Integer
  | String
  | Boolean
deriving DecidableEq, Repr

/-- Rust `Debug` rendering of a `Type` value. -/
def reprTy : Ty → String
  | .Integer => "Integer"
  | .String => "String"
  | .Boolean => "Boolean"

/-- Symbol-table entry (`typecheck.rs`, `struct SymbolEntry`). -/
structure SymbolEntry where
  name : String
  typ : Ty
deriving DecidableEq, Repr

/-- Symbol table (`typecheck.rs`, `struct SymbolTable`): a name-to-entry
mapping plus an optional owned parent scope. The Rust `HashMap` is modelled
as an association list with unique keys (inserts are refused on duplicate
keys, so insertion order is immaterial to `contains_key`/`get`). -/
inductive SymbolTable where
  | mk (symbols : List (String × SymbolEntry)) (parent : Option SymbolTable)

/-- Field accessor for the symbol mapping. -/
def SymbolTable.symbols : SymbolTable → List (String × SymbolEntry)
  | .mk symbols _ => symbols

/-- Field accessor for the parent link. -/
def SymbolTable.parent : SymbolTable → Option SymbolTable
  | .mk _ parent => parent

/-- Embedding of `HashMap::contains_key` on the association-list model. -/
def map_contains_key : List (String × SymbolEntry) → String → Bool
  | [], _ => false
  | (k, _) :: rest, name => if k = name then true else map_contains_key rest name

/-- Embedding of `HashMap::get` on the association-list model. -/
def map_get : List (String × SymbolEntry) → String → Option SymbolEntry
  | [], _ => none
  | (k, v) :: rest, name => if k = name then some v else map_get rest name

/-- Embedding of `SymbolTable::insert` (`typecheck.rs` lines 37-45): refuse
a duplicate name in this scope, otherwise record the entry. The Rust method
mutates `self` and returns `Result<(), String>`; here the updated table is
returned on success. -/
def SymbolTable.insert (t : SymbolTable) (name : String) (typ : Ty) :
    Except String SymbolTable :=
  if map_contains_key t.symbols name then
    .error ("Symbol \x27" ++ name ++ "\x27 is already defined")
  else
    .ok (.mk (t.symbols ++ [(name, ⟨name, typ⟩)]) t.parent)

/-- Embedding of `SymbolTable::lookup` (`typecheck.rs` lines 48-56): local
mapping first, then recursively the parent chain. -/
def SymbolTable.lookup : SymbolTable → String → Option SymbolEntry
  | .mk symbols parent, name =>
    match map_get symbols name with
    | some entry => some entry
    | none =>
      match parent with
      | some p => p.lookup name
      | none => none

/-- Semantic analyzer state (`typecheck.rs`, `struct SemanticAnalyzer`): the
scope stack. The Rust `Vec` has its top (current) scope last; here the list
is kept top-first (head = innermost scope), mirroring the `Vec` reversed. -/
structure SemanticAnalyzer where
  scopes : List SymbolTable

/-- Embedding of `SemanticAnalyzer::new` (`typecheck.rs` lines 66-70): a
single fresh global scope. -/
def SemanticAnalyzer.new : SemanticAnalyzer :=
  ⟨[SymbolTable.mk [] none]⟩

/-- Embedding of `SemanticAnalyzer::enter_scope` (`typecheck.rs` lines
73-75): push a fresh table whose parent is a clone of the current top.
The `last().unwrap()` on an empty stack is a Rust panic, modelled `none`. -/
def enter_scope (a : SemanticAnalyzer) : Option SemanticAnalyzer :=
  match a.scopes with
  | [] => none
  | top :: rest => some ⟨SymbolTable.mk [] (some top) :: top :: rest⟩

/-- Embedding of `SemanticAnalyzer::exit_scope` (`typecheck.rs` lines
78-80): pop the top scope (`Vec::pop` is a no-op error-free on empty). -/
def exit_scope (a : SemanticAnalyzer) : SemanticAnalyzer :=
  ⟨a.scopes.tail⟩

/-- Embedding of `SemanticAnalyzer::declare_variable` (`typecheck.rs` lines
83-88): insert into the current (innermost) scope; `last_mut().unwrap()` on
an empty stack is a Rust panic, modelled `none`. -/
def declare_variable (a : SemanticAnalyzer) (name : String) (typ : Ty) :
    Option (Except String SemanticAnalyzer) :=
  match a.scopes with
  | [] => none
  | top :: rest =>
    match top.insert name typ with
    | .error e => some (.error e)
    | .ok top1 => some (.ok ⟨top1 :: rest⟩)

/-- Helper for `lookup_variable`: walk the stack from the innermost scope
outward (the Rust `for scope in self.scopes.iter().rev()`). -/
def lookup_in_scopes : List SymbolTable → String → Option Ty
  | [], _ => none
  | s :: rest, name =>
    match s.lookup name with
    | some entry => some entry.typ
    | none => lookup_in_scopes rest name

/-- Embedding of `SemanticAnalyzer::lookup_variable` (`typecheck.rs` lines
91-98). -/
def lookup_variable (a : SemanticAnalyzer) (name : String) : Option Ty :=
  lookup_in_scopes a.scopes name

/-- Result of the fueled-free type checker: `none` models a Rust panic
(empty-stack `unwrap`), the `Except` layer the `Result<Type, String>`, and
an `ok` carries the inferred type and the updated analyzer state. -/
abbrev CRes := Option (Except String (Ty × SemanticAnalyzer))

mutual

/-- Embedding of `SemanticAnalyzer::check_types` (`typecheck.rs` lines
101-185). The Rust method mutates `self`; here the updated analyzer is
threaded through explicitly, and the `if let Some(else_branch)` inside the
Rust `IfStmt` arm is expanded into two top-level `IfStmt` patterns with
identical shared parts. The final catch-all arm (covering `Program` and
`StmtList`, the only constructors without an arm) is the source's
unknown-AST-node error built from the node's `Debug` rendering. -/
def check_types (a : SemanticAnalyzer) : ASTNode → CRes
  | .BinaryOp left op right =>
    match check_types a left with
    | none => none
    | some (.error e) => some (.error e)
    | some (.ok (left_type, a1)) =>
      match check_types a1 right with
      | none => none
      | some (.error e) => some (.error e)
      | some (.ok (right_type, a2)) =>
        match op with
        | .Plus | .Minus | .Star | .Slash =>
          if left_type = .Integer ∧ right_type = .Integer then
            some (.ok (.Integer, a2))
          else
            some (.error ("Type error: " ++ reprTy left_type ++ " and " ++
              reprTy right_type ++ " are not compatible with " ++ reprTok op))
        | .Equal | .NotEqual | .LessThan | .GreaterThan =>
          if left_type = right_type then
            some (.ok (.Boolean, a2))
          else
            some (.error ("Type error: " ++ reprTy left_type ++ " and " ++
              reprTy right_type ++ " cannot be compared with " ++ reprTok op))
        | _ => some (.error ("Unknown binary operator: " ++ reprTok op))
  | .Identifier name =>
    match lookup_variable a name with
    | some typ => some (.ok (typ, a))
    | none => some (.error ("Undeclared variable: " ++ name))
  | .Integer _ => some (.ok (.Integer, a))
  | .StringLiteral _ => some (.ok (.String, a))
  | .LetStmt name expr =>
    match check_types a expr with
    | none => none
    | some (.error e) => some (.error e)
    | some (.ok (expr_type, a1)) =>
      match declare_variable a1 name expr_type with
      | none => none
      | some (.error e) => some (.error e)
      | some (.ok a2) => some (.ok (expr_type, a2))
  | .IfStmt condition thenBranch none =>
    match check_types a condition with
    | none => none
    | some (.error e) => some (.error e)
    | some (.ok (cond_type, a1)) =>
      if cond_type ≠ .Boolean then
        some (.error "Condition of if statement must be boolean")
      else
        match check_types a1 thenBranch with
        | none => none
        | some (.error e) => some (.error e)
        | some (.ok (_, a2)) => some (.ok (.Boolean, a2))
  | .IfStmt condition thenBranch (some els) =>
    match check_types a condition with
    | none => none
    | some (.error e) => some (.error e)
    | some (.ok (cond_type, a1)) =>
      if cond_type ≠ .Boolean then
        some (.error "Condition of if statement must be boolean")
      else
        match check_types a1 thenBranch with
        | none => none
        | some (.error e) => some (.error e)
        | some (.ok (_, a2)) =>
          match check_types a2 els with
          | none => none
          | some (.error e) => some (.error e)
          | some (.ok (_, a3)) => some (.ok (.Boolean, a3))
  | .WhileStmt condition body =>
    match check_types a condition with
    | none => none
    | some (.error e) => some (.error e)
    | some (.ok (cond_type, a1)) =>
      if cond_type ≠ .Boolean then
        some (.error "Condition of while statement must be boolean")
      else
        match check_types a1 body with
        | none => none
        | some (.error e) => some (.error e)
        | some (.ok (_, a2)) => some (.ok (.Boolean, a2))
  | .ReturnStmt expr =>
    match check_types a expr with
    | none => none
    | some (.error e) => some (.error e)
    | some (.ok (expr_type, a1)) => some (.ok (expr_type, a1))
  | .Block statements =>
    match enter_scope a with
    | none => none
    | some a1 =>
      match check_stmt_seq a1 statements with
      | none => none
      | some (.error e) => some (.error e)
      | some (.ok a2) => some (.ok (.Boolean, exit_scope a2))
  | .ExprStmt expr => check_types a expr
  | node => some (.error ("Unknown AST node type: " ++ reprAST node))

/-- For-loop of the `Block` arm of `check_types`: check each contained
statement in order, threading the analyzer state. -/
def check_stmt_seq (a : SemanticAnalyzer) : List ASTNode → Option (Except String SemanticAnalyzer)
  | [] => some (.ok a)
  | stmt :: rest =>
    match check_types a stmt with
    | none => none
    | some (.error e) => some (.error e)
    | some (.ok (_, a1)) => check_stmt_seq a1 rest

end

/-- Property of a `check_types` result used for the scope-stack invariant:
the run did not panic (`none` is the empty-stack `unwrap`), and on success
the scope stack has the stated length. -/
def StackOk (n : Nat) : CRes → Prop
  | none => False
  | some (.error _) => True
  | some (.ok (_, a')) => a'.scopes.length = n

/-- Companion of `StackOk` for `check_stmt_seq` results. -/
def StackOkSeq (n : Nat) : Option (Except String SemanticAnalyzer) → Prop
  | none => False
  | some (.error _) => True
  | some (.ok a') => a'.scopes.length = n

/-- Property of a parse result: on success the new cursor position is at
most `n` (used with `n` the length of the token vector: the parser never
advances past the synthesized-`EOF` region). -/
def PosLe (n : Nat) : Parser.PRes → Prop
  | some (.ok (_, p)) => p ≤ n
  | _ => True

/-- Statement schema for the EOF-extension property of one parse method
`f`: at every cursor position inside the token vector `ts`, running `f` on
`ts` with one `EOF` token appended gives the same result as running it on
`ts`, and on success the new position is again inside `ts`. -/
def Agrees (ts : List Token) (f : List Token → Nat → Nat → Parser.PRes) (fuel : Nat) : Prop :=
  ∀ pos, pos ≤ ts.length →
    f (ts ++ [Token.EOF]) fuel pos = f ts fuel pos ∧ PosLe ts.length (f ts fuel pos)

/-!
Theorems settling the claims, in claim order where possible.

Equation-lemma generation fails for the structurally compiled `check_types`
(a known limitation for recursion through the nested `ASTNode` inductive),
so the defining equations needed symbolically are first restated by hand,
each proved by `rfl`.
-/

/-- Defining equation of `check_types` on `BinaryOp`. -/
theorem check_types_binop_eq (a : SemanticAnalyzer) (l : ASTNode) (op : Token) (r : ASTNode) :
    check_types a (.BinaryOp l op r) =
      (match check_types a l with
      | none => none
      | some (.error e) => some (.error e)
      | some (.ok (left_type, a1)) =>
        match check_types a1 r with
        | none => none
        | some (.error e) => some (.error e)
        | some (.ok (right_type, a2)) =>
          match op with
          | .Plus | .Minus | .Star | .Slash =>
            if left_type = .Integer ∧ right_type = .Integer then
              some (.ok (.Integer, a2))
            else
              some (.error ("Type error: " ++ reprTy left_type ++ " and " ++
                reprTy right_type ++ " are not compatible with " ++ reprTok op))
          | .Equal | .NotEqual | .LessThan | .GreaterThan =>
            if left_type = right_type then
              some (.ok (.Boolean, a2))
            else
              some (.error ("Type error: " ++ reprTy left_type ++ " and " ++
                reprTy right_type ++ " cannot be compared with " ++ reprTok op))
          | _ => some (.error ("Unknown binary operator: " ++ reprTok op))) := rfl

/-- Defining equation of `check_types` on `Identifier`. -/
theorem check_types_identifier_eq (a : SemanticAnalyzer) (name : String) :
    check_types a (.Identifier name) =
      (match lookup_variable a name with
      | some typ => some (.ok (typ, a))
      | none => some (.error ("Undeclared variable: " ++ name))) := rfl

/-- Defining equation of `check_types` on `Integer`. -/
theorem check_types_integer_eq (a : SemanticAnalyzer) (v : Int) :
    check_types a (.Integer v) = some (.ok (.Integer, a)) := rfl

/-- Defining equation of `check_types` on `StringLiteral`. -/
theorem check_types_string_eq (a : SemanticAnalyzer) (s : String) :
    check_types a (.StringLiteral s) = some (.ok (.String, a)) := rfl

/-- Defining equation of `check_types` on `LetStmt`. -/
theorem check_types_let_eq (a : SemanticAnalyzer) (name : String) (expr : ASTNode) :
    check_types a (.LetStmt name expr) =
      (match check_types a expr with
      | none => none
      | some (.error e) => some (.error e)
      | some (.ok (expr_type, a1)) =>
        match declare_variable a1 name expr_type with
        | none => none
        | some (.error e) => some (.error e)
        | some (.ok a2) => some (.ok (expr_type, a2))) := rfl

/-- Defining equation of `check_types` on `IfStmt` without else branch. -/
theorem check_types_if_none_eq (a : SemanticAnalyzer) (c t : ASTNode) :
    check_types a (.IfStmt c t none) =
      (match check_types a c with
      | none => none
      | some (.error err) => some (.error err)
      | some (.ok (cond_type, a1)) =>
        if cond_type ≠ .Boolean then some (.error "Condition of if statement must be boolean")
        else
          match check_types a1 t with
          | none => none
          | some (.error err) => some (.error err)
          | some (.ok (_, a2)) => some (.ok (.Boolean, a2))) := rfl

/-- Defining equation of `check_types` on `IfStmt` with an else branch. -/
theorem check_types_if_some_eq (a : SemanticAnalyzer) (c t els : ASTNode) :
    check_types a (.IfStmt c t (some els)) =
      (match check_types a c with
      | none => none
      | some (.error err) => some (.error err)
      | some (.ok (cond_type, a1)) =>
        if cond_type ≠ .Boolean then some (.error "Condition of if statement must be boolean")
        else
          match check_types a1 t with
          | none => none
          | some (.error err) => some (.error err)
          | some (.ok (_, a2)) =>
            match check_types a2 els with
            | none => none
            | some (.error err) => some (.error err)
            | some (.ok (_, a3)) => some (.ok (.Boolean, a3))) := rfl

/-- Defining equation of `check_types` on `WhileStmt`. -/
theorem check_types_while_eq (a : SemanticAnalyzer) (c b : ASTNode) :
    check_types a (.WhileStmt c b) =
      (match check_types a c with
      | none => none
      | some (.error err) => some (.error err)
      | some (.ok (cond_type, a1)) =>
        if cond_type ≠ .Boolean then some (.error "Condition of while statement must be boolean")
        else
          match check_types a1 b with
          | none => none
          | some (.error err) => some (.error err)
          | some (.ok (_, a2)) => some (.ok (.Boolean, a2))) := rfl

/-- Defining equation of `check_types` on `ReturnStmt`. -/
theorem check_types_return_eq (a : SemanticAnalyzer) (expr : ASTNode) :
    check_types a (.ReturnStmt expr) =
      (match check_types a expr with
      | none => none
      | some (.error e) => some (.error e)
      | some (.ok (expr_type, a1)) => some (.ok (expr_type, a1))) := rfl

/-- Defining equation of `check_types` on `Block`. -/
theorem check_types_block_eq (a : SemanticAnalyzer) (stmts : List ASTNode) :
    check_types a (.Block stmts) =
      (match enter_scope a with
      | none => none
      | some a1 =>
        match check_stmt_seq a1 stmts with
        | none => none
        | some (.error e) => some (.error e)
        | some (.ok a2) => some (.ok (.Boolean, exit_scope a2))) := rfl

/-- Defining equation of `check_types` on `ExprStmt`. -/
theorem check_types_exprstmt_eq (a : SemanticAnalyzer) (expr : ASTNode) :
    check_types a (.ExprStmt expr) = check_types a expr := rfl

/-- Defining equation of `check_types` on `StmtList` (the catch-all arm). -/
theorem check_types_stmtlist_eq (a : SemanticAnalyzer) (stmts : List ASTNode) :
    check_types a (.StmtList stmts) =
      some (.error ("Unknown AST node type: " ++ reprAST (.StmtList stmts))) := rfl

/-- Defining equation of `check_types` on `Program` (the catch-all arm). -/
theorem check_types_program_eq (a : SemanticAnalyzer) (stmts : List ASTNode) :
    check_types a (.Program stmts) =
      some (.error ("Unknown AST node type: " ++ reprAST (.Program stmts))) := rfl

/-- Defining equation of `check_stmt_seq` on the empty list. -/
theorem check_stmt_seq_nil_eq (a : SemanticAnalyzer) :
    check_stmt_seq a [] = some (.ok a) := rfl

/-- Defining equation of `check_stmt_seq` on a cons. -/
theorem check_stmt_seq_cons_eq (a : SemanticAnalyzer) (s : ASTNode) (rest : List ASTNode) :
    check_stmt_seq a (s :: rest) =
      (match check_types a s with
      | none => none
      | some (.error e) => some (.error e)
      | some (.ok (_, a1)) => check_stmt_seq a1 rest) := rfl

/-- Claim C6: the scanner maps each of `!` and `=` to exactly one
single-character token — `!` alone emits the not-equal token and `=` alone
emits the equals token, with no two-character lookahead — so the inputs
`!=` and `==` are each tokenized as two independent consecutive tokens and
never as a combined operator. -/
theorem bang_and_eq_are_single_char_tokens :
    (∀ rest : List Char, get_next_token ('!' :: rest) = some (.NotEqual, rest)) ∧
    (∀ rest : List Char, get_next_token ('=' :: rest) = some (.Equal, rest)) ∧
    tokenize "!=" = some [.NotEqual, .Equal] ∧
    tokenize "==" = some [.Equal, .Equal] :=
  ⟨fun _ => rfl, fun _ => rfl, rfl, rfl⟩

/-- Helper for claim C9: the string-literal loop hits the Rust
unterminated-string `panic!` whenever no closing quote remains. -/
theorem string_literal_loop_unterminated :
    ∀ cs acc : List Char, '\x22' ∉ cs → string_literal_loop cs acc = none := by
  intro cs
  induction cs with
  | nil => intro acc _; rfl
  | cons c rest ih =>
    intro acc hmem
    have hc : ¬ c = '\x22' := fun h => hmem (List.mem_cons.2 (Or.inl h.symm))
    have hr : '\x22' ∉ rest := fun h => hmem (List.mem_cons_of_mem c h)
    rw [string_literal_loop, if_neg hc]
    exact ih _ hr

/-- Claim C9: scanning a string literal that reaches end of input before a
closing double quote is a fatal unterminated-string condition (the scan
aborts — a panic, modelled `none` — rather than returning a recoverable
value), and scanning the two-character input `""` yields a string-literal
token carrying the empty string. -/
theorem unterminated_string_fatal_empty_string_ok :
    (∀ cs : List Char, '\x22' ∉ cs → get_next_token ('\x22' :: cs) = none) ∧
    get_next_token ['\x22', '\x22'] = some (.StringLiteral "", []) := by
  refine ⟨fun cs h => ?_, rfl⟩
  show string_literal ('\x22' :: cs) = none
  show string_literal_loop cs [] = none
  exact string_literal_loop_unterminated cs [] h

/-- Witness for claim C9 at the spec's concrete input `"abc` (an opening
quote never followed by a closing one). -/
theorem unterminated_string_fatal_empty_string_ok_witness :
    '\x22' ∉ ['a', 'b', 'c'] ∧ get_next_token ('\x22' :: ['a', 'b', 'c']) = none :=
  ⟨by decide, unterminated_string_fatal_empty_string_ok.1 ['a', 'b', 'c'] (by decide)⟩

/-- Claim C7: the parser gives `+ - > < = !` one flat left-associative
precedence tier above the left-associative `* /` tier, so the token
sequence for `a + b > c` parses as `(a+b) > c` and the token sequence for
`a > b > c` parses as `((a>b)>c)`. -/
theorem flat_precedence_tier_parses :
    Parser.parse_expr [.Identifier "a", .Plus, .Identifier "b", .GreaterThan, .Identifier "c"] 20 0 =
      some (.ok (.BinaryOp (.BinaryOp (.Identifier "a") .Plus (.Identifier "b"))
        .GreaterThan (.Identifier "c"), 5)) ∧
    Parser.parse_expr [.Identifier "a", .GreaterThan, .Identifier "b", .GreaterThan, .Identifier "c"] 20 0 =
      some (.ok (.BinaryOp (.BinaryOp (.Identifier "a") .GreaterThan (.Identifier "b"))
        .GreaterThan (.Identifier "c"), 5)) :=
  ⟨rfl, rfl⟩

/-- Claim C1 (code bug): for the source `let x = 1; let y = "a"; x + y;`
the scanner and parser succeed, but `check_types` on the resulting AST does
not report the Integer/String incompatibility on `+` that the spec states:
the root is a `StmtList`, which `check_types` has no arm for, so the run
fails with the catch-all unknown-node error. Checking the three statements
in order (as the `Block` loop would) does produce exactly the claimed
Integer/String incompatibility error on `+`, showing the missing
`StmtList`/`Program` arm is the point of divergence. -/
theorem pipeline_c1_unknown_node_instead_of_type_error :
    tokenize "let x = 1; let y = \"a\"; x + y;" =
      some [.Let, .Identifier "x", .Equal, .Integer 1, .Semicolon,
            .Let, .Identifier "y", .Equal, .StringLiteral "a", .Semicolon,
            .Identifier "x", .Plus, .Identifier "y", .Semicolon] ∧
    Parser.parse_program [.Let, .Identifier "x", .Equal, .Integer 1, .Semicolon,
            .Let, .Identifier "y", .Equal, .StringLiteral "a", .Semicolon,
            .Identifier "x", .Plus, .Identifier "y", .Semicolon] 20 0 =
      some (.ok (.StmtList [.LetStmt "x" (.Integer 1), .LetStmt "y" (.StringLiteral "a"),
        .ExprStmt (.BinaryOp (.Identifier "x") .Plus (.Identifier "y"))], 14)) ∧
    check_types SemanticAnalyzer.new
        (.StmtList [.LetStmt "x" (.Integer 1), .LetStmt "y" (.StringLiteral "a"),
          .ExprStmt (.BinaryOp (.Identifier "x") .Plus (.Identifier "y"))]) =
      some (.error ("Unknown AST node type: " ++
        reprAST (.StmtList [.LetStmt "x" (.Integer 1), .LetStmt "y" (.StringLiteral "a"),
          .ExprStmt (.BinaryOp (.Identifier "x") .Plus (.Identifier "y"))]))) ∧
    check_stmt_seq SemanticAnalyzer.new
        [.LetStmt "x" (.Integer 1), .LetStmt "y" (.StringLiteral "a"),
         .ExprStmt (.BinaryOp (.Identifier "x") .Plus (.Identifier "y"))] =
      some (.error "Type error: Integer and String are not compatible with Plus") :=
  ⟨rfl, rfl, rfl, rfl⟩

/-- Helper for claim C2: the statement-list loop only ever returns a
`StmtList` node on success. -/
theorem stmt_list_loop_returns_stmtlist (tokens : List Token) :
    ∀ fuel pos acc ast p,
      Parser.stmt_list_loop tokens fuel pos acc = some (.ok (ast, p)) →
      ∃ l, ast = .StmtList l := by
  intro fuel
  induction fuel with
  | zero =>
    intro pos acc ast p h
    exact absurd h (by simp [Parser.stmt_list_loop])
  | succ fuel ih =>
    intro pos acc ast p h
    rw [Parser.stmt_list_loop] at h
    by_cases hc : Parser.current tokens pos ≠ .EOF ∧ Parser.current tokens pos ≠ .RBrace
    · rw [if_pos hc] at h
      rcases hps : Parser.parse_stmt tokens fuel pos with _ | e | ⟨s, pos1⟩ <;> rw [hps] at h
      · exact absurd h (by simp)
      · exact absurd h (by simp)
      · exact ih _ _ _ _ h
    · rw [if_neg hc] at h
      simp only [Option.some.injEq, Except.ok.injEq, Prod.mk.injEq] at h
      exact ⟨acc, h.1.symm⟩

/-- Claim C2: every successful `parse_program` returns an AST whose root is
a `StmtList`, and `check_types`, having no arm for `StmtList` or `Program`
nodes, rejects every such AST (and every `Program` node) with the
unknown-AST-node error regardless of the analyzer state — even when every
contained statement is well-typed. -/
theorem parse_program_root_never_type_checks (tokens : List Token) (fuel pos p : Nat)
    (ast : ASTNode) (h : Parser.parse_program tokens fuel pos = some (.ok (ast, p))) :
    (∃ stmts, ast = .StmtList stmts) ∧
    (∀ a, check_types a ast =
      some (.error ("Unknown AST node type: " ++ reprAST ast))) ∧
    (∀ a stmts, check_types a (.Program stmts) =
      some (.error ("Unknown AST node type: " ++ reprAST (.Program stmts)))) := by
  obtain ⟨stmts, rfl⟩ : ∃ stmts, ast = .StmtList stmts := by
    cases fuel with
    | zero => exact absurd h (by simp [Parser.parse_program])
    | succ fuel =>
      rw [Parser.parse_program] at h
      cases fuel with
      | zero => exact absurd h (by simp [Parser.parse_stmt_list])
      | succ fuel =>
        rw [Parser.parse_stmt_list] at h
        exact stmt_list_loop_returns_stmtlist tokens _ _ _ _ _ h
  exact ⟨⟨stmts, rfl⟩, fun a => check_types_stmtlist_eq a stmts,
    fun a l => check_types_program_eq a l⟩

/-- Witness for claim C2 at the empty token vector with fuel 3, which
parses to the empty statement list. -/
theorem parse_program_root_never_type_checks_witness :
    (∃ stmts, ASTNode.StmtList [] = ASTNode.StmtList stmts) ∧
    (∀ a, check_types a (.StmtList []) =
      some (.error ("Unknown AST node type: " ++ reprAST (.StmtList [])))) ∧
    (∀ a stmts, check_types a (.Program stmts) =
      some (.error ("Unknown AST node type: " ++ reprAST (.Program stmts)))) :=
  parse_program_root_never_type_checks [] 3 0 0 (.StmtList []) rfl

/-- Claim C4: type-checking two let statements that declare the same name
in the same scope fails with the duplicate-declaration error for that name,
while a let statement inside a nested block that redeclares a name already
declared in an enclosing scope succeeds (shadowing is permitted). Stated
for an arbitrary name and arbitrary integer initializers, starting from a
fresh analyzer. -/
theorem duplicate_let_errors_shadowing_allowed (n : String) (v1 v2 : Int) :
    ∃ a1 : SemanticAnalyzer,
      check_types SemanticAnalyzer.new (.LetStmt n (.Integer v1)) = some (.ok (.Integer, a1)) ∧
      check_types a1 (.LetStmt n (.Integer v2)) =
        some (.error ("Symbol \x27" ++ n ++ "\x27 is already defined")) ∧
      check_types a1 (.Block [.LetStmt n (.Integer v2)]) = some (.ok (.Boolean, a1)) := by
  refine ⟨⟨[.mk [(n, ⟨n, .Integer⟩)] none]⟩, ?_, ?_, ?_⟩ <;>
    simp [check_types_let_eq, check_types_block_eq, check_types_integer_eq,
      check_stmt_seq_cons_eq, check_stmt_seq_nil_eq, declare_variable, enter_scope,
      exit_scope, SymbolTable.insert, map_contains_key, SymbolTable.symbols,
      SymbolTable.parent, SemanticAnalyzer.new]

/-- Claim C3: for a binary-operation node whose two operands type-check (to
`left_type` and `right_type`, threading the analyzer state), an arithmetic
operator `+ - * /` yields `Integer` exactly when both operand types are
`Integer` and otherwise the error naming the operator and both operand
types, and a comparison operator `= ≠ < >` yields `Boolean` exactly when
the operand types are equal and otherwise the comparison error. -/
theorem binary_op_typing (a a1 a2 : SemanticAnalyzer) (left right : ASTNode) (op : Token)
    (left_type right_type : Ty)
    (hl : check_types a left = some (.ok (left_type, a1)))
    (hr : check_types a1 right = some (.ok (right_type, a2))) :
    ((op = .Plus ∨ op = .Minus ∨ op = .Star ∨ op = .Slash) →
      check_types a (.BinaryOp left op right) =
        if left_type = .Integer ∧ right_type = .Integer then some (.ok (.Integer, a2))
        else some (.error ("Type error: " ++ reprTy left_type ++ " and " ++
          reprTy right_type ++ " are not compatible with " ++ reprTok op))) ∧
    ((op = .Equal ∨ op = .NotEqual ∨ op = .LessThan ∨ op = .GreaterThan) →
      check_types a (.BinaryOp left op right) =
        if left_type = right_type then some (.ok (.Boolean, a2))
        else some (.error ("Type error: " ++ reprTy left_type ++ " and " ++
          reprTy right_type ++ " cannot be compared with " ++ reprTok op))) := by
  constructor <;> rintro (rfl | rfl | rfl | rfl) <;>
    simp only [check_types_binop_eq, hl, hr]

/-- Witness for claim C3: the arithmetic case at `1 + "a"` (types Integer
and String), which produces the incompatibility error, and the comparison
case at `"t" = "s"` (both String), which produces Boolean. -/
theorem binary_op_typing_witness :
    check_types SemanticAnalyzer.new (.BinaryOp (.Integer 1) .Plus (.StringLiteral "a")) =
      some (.error "Type error: Integer and String are not compatible with Plus") ∧
    check_types SemanticAnalyzer.new (.BinaryOp (.StringLiteral "t") .Equal (.StringLiteral "s")) =
      some (.ok (.Boolean, SemanticAnalyzer.new)) := by
  constructor
  · have h := (binary_op_typing SemanticAnalyzer.new SemanticAnalyzer.new SemanticAnalyzer.new
      (.Integer 1) (.StringLiteral "a") .Plus .Integer .String rfl rfl).1 (Or.inl rfl)
    simpa using h
  · have h := (binary_op_typing SemanticAnalyzer.new SemanticAnalyzer.new SemanticAnalyzer.new
      (.StringLiteral "t") (.StringLiteral "s") .Equal .String .String rfl rfl).2 (Or.inl rfl)
    simpa using h

/-- Helper: a scope stack with the same length as a nonempty one is
nonempty. -/
theorem scopes_ne_nil_of_length_eq {a b : SemanticAnalyzer}
    (hlen : b.scopes.length = a.scopes.length) (h : a.scopes ≠ []) : b.scopes ≠ [] := by
  intro hb
  rw [hb] at hlen
  exact h (List.length_eq_zero.1 hlen.symm)

/-- Helper for claim C5: `declare_variable` panics only on an empty scope
stack, and on success preserves the stack length. -/
theorem declare_variable_stack (a : SemanticAnalyzer) (n : String) (t : Ty)
    (h : a.scopes ≠ []) :
    declare_variable a n t ≠ none ∧
    ∀ a', declare_variable a n t = some (.ok a') → a'.scopes.length = a.scopes.length := by
  obtain ⟨scopes⟩ := a
  cases scopes with
  | nil => exact absurd rfl h
  | cons top rest =>
    constructor
    · rcases hi : top.insert n t with e | top1 <;> simp [declare_variable, hi]
    · intro a' ha'
      rcases hi : top.insert n t with e | top1 <;> rw [declare_variable] at ha' <;>
        simp only [hi] at ha'
      · exact absurd ha' (by simp)
      · simp only [Option.some.injEq, Except.ok.injEq] at ha'
        rw [← ha']
        simp

mutual

/-- Helper for claim C5, by mutual structural induction with
`check_stmt_seq_stack_ok`: starting from a nonempty scope stack,
`check_types` never panics and, on success, returns the stack to its
starting length. -/
theorem check_types_stack_ok (a : SemanticAnalyzer) (node : ASTNode) (h : a.scopes ≠ []) :
    StackOk a.scopes.length (check_types a node) := by
  cases node with
  | Program stmts => rw [check_types_program_eq]; trivial
  | StmtList stmts => rw [check_types_stmtlist_eq]; trivial
  | Integer v => rw [check_types_integer_eq]; exact rfl
  | StringLiteral s => rw [check_types_string_eq]; exact rfl
  | Identifier name =>
    rw [check_types_identifier_eq]
    rcases lookup_variable a name with _ | typ
    · trivial
    · exact rfl
  | LetStmt name expr =>
    rw [check_types_let_eq]
    have hS := check_types_stack_ok a expr h
    rcases he : check_types a expr with _ | e | ⟨t, a1⟩ <;> rw [he] at hS
    · exact hS.elim
    · trivial
    · dsimp only
      have ha1 : a1.scopes.length = a.scopes.length := hS
      have ha1ne : a1.scopes ≠ [] := scopes_ne_nil_of_length_eq ha1 h
      obtain ⟨hd1, hd2⟩ := declare_variable_stack a1 name t ha1ne
      rcases hd : declare_variable a1 name t with _ | e | a2
      · exact absurd hd hd1
      · trivial
      · show a2.scopes.length = a.scopes.length
        rw [hd2 a2 hd, ha1]
  | IfStmt cond thenBranch elseBranch =>
    have hSc := check_types_stack_ok a cond h
    cases elseBranch with
    | none =>
      rw [check_types_if_none_eq]
      rcases hc : check_types a cond with _ | e | ⟨ct, a1⟩ <;> rw [hc] at hSc
      · exact hSc.elim
      · trivial
      · dsimp only
        have ha1 : a1.scopes.length = a.scopes.length := hSc
        have ha1ne : a1.scopes ≠ [] := scopes_ne_nil_of_length_eq ha1 h
        split
        · trivial
        · have hSt := check_types_stack_ok a1 thenBranch ha1ne
          rcases ht : check_types a1 thenBranch with _ | e | ⟨tt, a2⟩ <;> rw [ht] at hSt
          · exact hSt.elim
          · trivial
          · show a2.scopes.length = a.scopes.length
            rw [(hSt : a2.scopes.length = a1.scopes.length), ha1]
    | some els =>
      rw [check_types_if_some_eq]
      rcases hc : check_types a cond with _ | e | ⟨ct, a1⟩ <;> rw [hc] at hSc
      · exact hSc.elim
      · trivial
      · dsimp only
        have ha1 : a1.scopes.length = a.scopes.length := hSc
        have ha1ne : a1.scopes ≠ [] := scopes_ne_nil_of_length_eq ha1 h
        split
        · trivial
        · have hSt := check_types_stack_ok a1 thenBranch ha1ne
          rcases ht : check_types a1 thenBranch with _ | e | ⟨tt, a2⟩ <;> rw [ht] at hSt
          · exact hSt.elim
          · trivial
          · dsimp only
            have ha2 : a2.scopes.length = a1.scopes.length := hSt
            have ha2ne : a2.scopes ≠ [] := scopes_ne_nil_of_length_eq ha2 ha1ne
            have hSe := check_types_stack_ok a2 els ha2ne
            rcases hel : check_types a2 els with _ | e | ⟨te, a3⟩ <;> rw [hel] at hSe
            · exact hSe.elim
            · trivial
            · show a3.scopes.length = a.scopes.length
              rw [(hSe : a3.scopes.length = a2.scopes.length), ha2, ha1]
  | WhileStmt cond body =>
    rw [check_types_while_eq]
    have hSc := check_types_stack_ok a cond h
    rcases hc : check_types a cond with _ | e | ⟨ct, a1⟩ <;> rw [hc] at hSc
    · exact hSc.elim
    · trivial
    · dsimp only
      have ha1 : a1.scopes.length = a.scopes.length := hSc
      have ha1ne : a1.scopes ≠ [] := scopes_ne_nil_of_length_eq ha1 h
      split
      · trivial
      · have hSb := check_types_stack_ok a1 body ha1ne
        rcases hb : check_types a1 body with _ | e | ⟨tb, a2⟩ <;> rw [hb] at hSb
        · exact hSb.elim
        · trivial
        · show a2.scopes.length = a.scopes.length
          rw [(hSb : a2.scopes.length = a1.scopes.length), ha1]
  | ReturnStmt expr =>
    rw [check_types_return_eq]
    have hS := check_types_stack_ok a expr h
    rcases he : check_types a expr with _ | e | ⟨t, a1⟩ <;> rw [he] at hS
    · exact hS.elim
    · trivial
    · exact (hS : a1.scopes.length = a.scopes.length)
  | Block stmts =>
    rw [check_types_block_eq]
    obtain ⟨scopes⟩ := a
    cases scopes with
    | nil => exact absurd rfl h
    | cons top rest =>
      dsimp only [enter_scope]
      have hSeq := check_stmt_seq_stack_ok ⟨SymbolTable.mk [] (some top) :: top :: rest⟩
        stmts (by simp)
      rcases hs : check_stmt_seq ⟨SymbolTable.mk [] (some top) :: top :: rest⟩ stmts
        with _ | e | a2 <;> rw [hs] at hSeq
      · exact hSeq.elim
      · trivial
      · have ha2 : a2.scopes.length =
          (SymbolTable.mk [] (some top) :: top :: rest).length := hSeq
        show a2.scopes.tail.length = (top :: rest).length
        rw [List.length_tail, ha2]
        simp
  | ExprStmt expr =>
    rw [check_types_exprstmt_eq]
    exact check_types_stack_ok a expr h
  | BinaryOp l op r =>
    rw [check_types_binop_eq]
    have hSl := check_types_stack_ok a l h
    rcases hl : check_types a l with _ | e | ⟨tl, a1⟩ <;> rw [hl] at hSl
    · exact hSl.elim
    · trivial
    · dsimp only
      have ha1 : a1.scopes.length = a.scopes.length := hSl
      have ha1ne : a1.scopes ≠ [] := scopes_ne_nil_of_length_eq ha1 h
      have hSr := check_types_stack_ok a1 r ha1ne
      rcases hr : check_types a1 r with _ | e | ⟨tr, a2⟩ <;> rw [hr] at hSr
      · exact hSr.elim
      · trivial
      · dsimp only
        have ha2 : a2.scopes.length = a.scopes.length := by
          rw [(hSr : a2.scopes.length = a1.scopes.length), ha1]
        cases op
        all_goals dsimp only
        all_goals try trivial
        all_goals split
        all_goals first | exact ha2 | trivial
termination_by structural node

/-- Helper for claim C5, mutual with `check_types_stack_ok`: the statement
loop of a block neither panics nor changes the stack length, starting from
a nonempty stack. -/
theorem check_stmt_seq_stack_ok (a : SemanticAnalyzer) (l : List ASTNode)
    (h : a.scopes ≠ []) :
    StackOkSeq a.scopes.length (check_stmt_seq a l) := by
  cases l with
  | nil => rw [check_stmt_seq_nil_eq]; exact rfl
  | cons s rest =>
    rw [check_stmt_seq_cons_eq]
    have hS := check_types_stack_ok a s h
    rcases hs : check_types a s with _ | e | ⟨t, a1⟩ <;> rw [hs] at hS
    · exact hS.elim
    · trivial
    · dsimp only
      have ha1 : a1.scopes.length = a.scopes.length := hS
      have ha1ne : a1.scopes ≠ [] := scopes_ne_nil_of_length_eq ha1 h
      have hrest := check_stmt_seq_stack_ok a1 rest ha1ne
      rw [ha1] at hrest
      exact hrest
termination_by structural l

end

/-- Counterexample to claim C8: an unexpected token in factor position (and
a missing identifier after `let`) aborts with a fixed message that does not
name the token actually found. For the token input `;` the factor error is
the constant string, with no occurrence of the found token's name
`Semicolon`; for `let 5` the error is the constant `Expected identifier`,
with no occurrence of the found token's name `Integer(5)`. -/
theorem parse_error_message_counterexample :
    Parser.parse_program [Token.Semicolon] 10 0 =
      some (.error "Unexpected token in factor") ∧
    ¬ ("Semicolon".data <:+: "Unexpected token in factor".data) ∧
    Parser.parse_program [Token.Let, Token.Integer 5] 10 0 =
      some (.error "Expected identifier") ∧
    ¬ ("Integer".data <:+: "Expected identifier".data) :=
  ⟨rfl, by decide, rfl, by decide⟩

/-- Claim C8 as amended: on any grammar mismatch the parser aborts
immediately, propagating the first error unchanged with no
resynchronization, multi-error collection, or partial-AST recovery; a
wrong token at an `expect` site produces an error naming both the expected
token and the token actually found, while the missing-identifier error of a
let statement and the unexpected-token-in-factor error are the fixed
messages `Expected identifier` and `Unexpected token in factor`, which name
neither. -/
theorem parse_error_policy_amended :
    (∀ (tokens : List Token) (pos : Nat) (expected : Token),
      Parser.current tokens pos ≠ expected →
      Parser.expect tokens pos expected =
        .error ("Expected " ++ reprTok expected ++ ", found " ++
          reprTok (Parser.current tokens pos))) ∧
    (∀ (tokens : List Token) (fuel pos : Nat),
      (∀ s, Parser.current tokens pos ≠ .Identifier s) →
      (∀ v, Parser.current tokens pos ≠ .Integer v) →
      (∀ s, Parser.current tokens pos ≠ .StringLiteral s) →
      Parser.current tokens pos ≠ .LParen →
      Parser.parse_factor tokens (fuel + 1) pos =
        some (.error "Unexpected token in factor")) ∧
    Parser.parse_program [Token.Let, Token.Identifier "x", Token.Plus] 10 0 =
      some (.error "Expected Equal, found Plus") ∧
    Parser.parse_program [Token.Semicolon, Token.Semicolon] 10 0 =
      some (.error "Unexpected token in factor") := by
  refine ⟨?_, ?_, rfl, rfl⟩
  · intro tokens pos expected h
    rw [Parser.expect, if_neg h]
  · intro tokens fuel pos hid hint hstr hlp
    rw [Parser.parse_factor]
    cases hc : Parser.current tokens pos
    case LParen => exact absurd hc hlp
    case Identifier name => exact absurd hc (hid name)
    case Integer v => exact absurd hc (hint v)
    case StringLiteral s => exact absurd hc (hstr s)
    all_goals rfl

/-- Witness for the amended claim C8: the wrong-token case at `+` where `=`
is expected, and the factor case at `;`. -/
theorem parse_error_policy_amended_witness :
    Parser.expect [Token.Plus] 0 .Equal =
      .error ("Expected " ++ reprTok .Equal ++ ", found " ++
        reprTok (Parser.current [Token.Plus] 0)) ∧
    Parser.parse_factor [Token.Semicolon] 10 0 =
      some (.error "Unexpected token in factor") :=
  ⟨parse_error_policy_amended.1 [Token.Plus] 0 .Equal (by decide),
   parse_error_policy_amended.2.1 [Token.Semicolon] 9 0 (by simp [Parser.current])
     (by simp [Parser.current]) (by simp [Parser.current]) (by simp [Parser.current])⟩

/-- Claim C5: starting from a freshly constructed analyzer (which holds
exactly one global scope), a `check_types` run never observes an empty
scope stack (no `unwrap` panic can fire from any nonempty starting stack),
and on success the stack is returned to its starting length — in
particular, exactly the one global scope is on the stack before the run
and after all blocks have exited. -/
theorem scope_stack_invariant :
    SemanticAnalyzer.new.scopes.length = 1 ∧
    (∀ (a : SemanticAnalyzer) (node : ASTNode), a.scopes ≠ [] → check_types a node ≠ none) ∧
    (∀ (a : SemanticAnalyzer) (node : ASTNode) (t : Ty) (a' : SemanticAnalyzer),
      a.scopes ≠ [] → check_types a node = some (.ok (t, a')) →
      a'.scopes.length = a.scopes.length) ∧
    (∀ (node : ASTNode) (t : Ty) (a' : SemanticAnalyzer),
      check_types SemanticAnalyzer.new node = some (.ok (t, a')) →
      a'.scopes.length = 1) := by
  have hne : SemanticAnalyzer.new.scopes ≠ [] := by simp [SemanticAnalyzer.new]
  refine ⟨rfl, ?_, ?_, ?_⟩
  · intro a node ha hnone
    have hS := check_types_stack_ok a node ha
    rw [hnone] at hS
    exact hS.elim
  · intro a node t a' ha hok
    have hS := check_types_stack_ok a node ha
    rw [hok] at hS
    exact hS
  · intro node t a' hok
    have hS := check_types_stack_ok SemanticAnalyzer.new node hne
    rw [hok] at hS
    exact hS

/-- Witness for claim C5 at a concrete block statement from the fresh
analyzer: the run does not panic, and the successful run of the empty block
returns to exactly the global scope. -/
theorem scope_stack_invariant_witness :
    check_types SemanticAnalyzer.new (.Block [.LetStmt "x" (.Integer 5)]) ≠ none ∧
    (SemanticAnalyzer.new).scopes.length = 1 := by
  refine ⟨scope_stack_invariant.2.1 SemanticAnalyzer.new (.Block [.LetStmt "x" (.Integer 5)])
    (by simp [SemanticAnalyzer.new]), scope_stack_invariant.1⟩

/-- Helper for claim C10: inside the token vector (including the position
one past its end), appending an `EOF` token does not change what `current`
returns, because `current` synthesizes `EOF` there anyway. -/
theorem current_append (ts : List Token) (pos : Nat) (hpos : pos ≤ ts.length) :
    Parser.current (ts ++ [Token.EOF]) pos = Parser.current ts pos := by
  rw [Parser.current, Parser.current]
  rcases Nat.lt_or_ge pos ts.length with hlt | hge
  · rw [dif_pos hlt, dif_pos (show pos < (ts ++ [Token.EOF]).length by simp; omega)]
    exact List.getElem_append_left hlt
  · have heq : pos = ts.length := Nat.le_antisymm hpos hge
    subst heq
    rw [dif_pos (show ts.length < (ts ++ [Token.EOF]).length by simp), dif_neg (by omega)]
    simp

/-- Helper for claim C10: a non-`EOF` current token means the cursor is
strictly inside the token vector. -/
theorem current_ne_eof_lt (ts : List Token) (pos : Nat) (hpos : pos ≤ ts.length)
    (h : Parser.current ts pos ≠ .EOF) : pos < ts.length := by
  by_contra hlt
  exact h (by rw [Parser.current, dif_neg hlt])

/-- Helper for claim C10: strictly inside the token vector, `advance` moves
the cursor one step, on the vector itself and on the vector with `EOF`
appended alike. -/
theorem advance_inside (ts : List Token) (pos : Nat) (h : pos < ts.length) :
    Parser.advance ts pos = pos + 1 ∧ Parser.advance (ts ++ [Token.EOF]) pos = pos + 1 :=
  ⟨by rw [Parser.advance, if_pos h],
   by rw [Parser.advance, if_pos (show pos < (ts ++ [Token.EOF]).length by simp; omega)]⟩

/-- Helper for claim C10: for a non-`EOF` expected token, `expect` is
unchanged by appending `EOF` to the token vector, and on success leaves the
cursor inside the vector. -/
theorem expect_append (ts : List Token) (pos : Nat) (expected : Token)
    (hpos : pos ≤ ts.length) (hne : expected ≠ .EOF) :
    Parser.expect (ts ++ [Token.EOF]) pos expected = Parser.expect ts pos expected ∧
    ∀ p, Parser.expect ts pos expected = .ok p → p ≤ ts.length := by
  rw [Parser.expect, Parser.expect, current_append ts pos hpos]
  by_cases hc : Parser.current ts pos = expected
  · have hlt : pos < ts.length := current_ne_eof_lt ts pos hpos (by rw [hc]; exact hne)
    obtain ⟨h1, h2⟩ := advance_inside ts pos hlt
    rw [if_pos hc, if_pos hc, h1, h2]
    exact ⟨rfl, fun p hp => by cases Except.ok.inj hp; omega⟩
  · rw [if_neg hc, if_neg hc]
    exact ⟨rfl, fun p hp => absurd hp (by simp)⟩

/-- Helper for claim C10, by simultaneous fuel induction over all sixteen
parse methods: appending an `EOF` token to the token vector changes no
method's result at any cursor position inside the vector, and successful
runs leave the cursor inside the vector. -/
theorem parse_eof_ext (ts : List Token) : ∀ fuel : Nat,
    Agrees ts Parser.parse_program fuel ∧
    Agrees ts Parser.parse_stmt_list fuel ∧
    (∀ acc, Agrees ts (fun tk fl p => Parser.stmt_list_loop tk fl p acc) fuel) ∧
    Agrees ts Parser.parse_stmt fuel ∧
    Agrees ts Parser.parse_let_stmt fuel ∧
    Agrees ts Parser.parse_if_stmt fuel ∧
    Agrees ts Parser.parse_while_stmt fuel ∧
    Agrees ts Parser.parse_return_stmt fuel ∧
    Agrees ts Parser.parse_block fuel ∧
    (∀ acc, Agrees ts (fun tk fl p => Parser.block_loop tk fl p acc) fuel) ∧
    Agrees ts Parser.parse_expr_stmt fuel ∧
    Agrees ts Parser.parse_expr fuel ∧
    (∀ node, Agrees ts (fun tk fl p => Parser.expr_loop tk fl p node) fuel) ∧
    Agrees ts Parser.parse_term fuel ∧
    (∀ node, Agrees ts (fun tk fl p => Parser.term_loop tk fl p node) fuel) ∧
    Agrees ts Parser.parse_factor fuel := by
  intro fuel
  induction fuel with
  | zero =>
    refine ⟨?_, ?_, ?_, ?_, ?_, ?_, ?_, ?_, ?_, ?_, ?_, ?_, ?_, ?_, ?_, ?_⟩ <;>
      first
        | exact fun pos _ => ⟨rfl, True.intro⟩
        | exact fun x pos _ => ⟨rfl, True.intro⟩
  | succ fuel IH =>
    obtain ⟨ihProg, ihList, ihListLoop, ihStmt, ihLet, ihIf, ihWhile, ihReturn,
      ihBlock, ihBlockLoop, ihExprStmt, ihExpr, ihExprLoop, ihTerm, ihTermLoop,
      ihFactor⟩ := IH
    refine ⟨?_, ?_, ?_, ?_, ?_, ?_, ?_, ?_, ?_, ?_, ?_, ?_, ?_, ?_, ?_, ?_⟩
    · intro pos hpos
      simp only [Parser.parse_program]
      exact ihList pos hpos
    · intro pos hpos
      simp only [Parser.parse_stmt_list]
      exact ihListLoop [] pos hpos
    · intro acc pos hpos
      simp only [Parser.stmt_list_loop]
      rw [current_append ts pos hpos]
      by_cases hc : Parser.current ts pos ≠ .EOF ∧ Parser.current ts pos ≠ .RBrace
      · rw [if_pos hc, if_pos hc]
        obtain ⟨hS, hSle⟩ := ihStmt pos hpos
        rw [hS]
        rcases hx : Parser.parse_stmt ts fuel pos with _ | e | ⟨s, pos1⟩
        · exact ⟨rfl, True.intro⟩
        · exact ⟨rfl, True.intro⟩
        · rw [hx] at hSle
          exact ihListLoop (acc ++ [s]) pos1 hSle
      · rw [if_neg hc, if_neg hc]
        exact ⟨rfl, hpos⟩
    · intro pos hpos
      simp only [Parser.parse_stmt]
      rw [current_append ts pos hpos]
      cases hc : Parser.current ts pos
      case Let => exact ihLet pos hpos
      case If => exact ihIf pos hpos
      case While => exact ihWhile pos hpos
      case Return => exact ihReturn pos hpos
      case LBrace => exact ihBlock pos hpos
      all_goals exact ihExprStmt pos hpos
    · intro pos hpos
      simp only [Parser.parse_let_stmt]
      obtain ⟨he1, he1le⟩ := expect_append ts pos .Let hpos (by decide)
      rw [he1]
      rcases hx1 : Parser.expect ts pos .Let with e | pos1
      · exact ⟨rfl, True.intro⟩
      · dsimp only
        have hp1 : pos1 ≤ ts.length := he1le pos1 hx1
        rw [current_append ts pos1 hp1]
        cases hc : Parser.current ts pos1
        case Identifier name =>
          dsimp only
          have hlt : pos1 < ts.length :=
            current_ne_eof_lt ts pos1 hp1 (by rw [hc]; simp)
          obtain ⟨ha1, ha2⟩ := advance_inside ts pos1 hlt
          rw [ha1, ha2]
          obtain ⟨he2, he2le⟩ := expect_append ts (pos1 + 1) .Equal hlt (by decide)
          rw [he2]
          rcases hx2 : Parser.expect ts (pos1 + 1) .Equal with e | pos3
          · exact ⟨rfl, True.intro⟩
          · dsimp only
            obtain ⟨hE, hEle⟩ := ihExpr pos3 (he2le pos3 hx2)
            rw [hE]
            rcases hx3 : Parser.parse_expr ts fuel pos3 with _ | e | ⟨expr, pos4⟩
            · exact ⟨rfl, True.intro⟩
            · exact ⟨rfl, True.intro⟩
            · dsimp only
              rw [hx3] at hEle
              obtain ⟨he3, he3le⟩ := expect_append ts pos4 .Semicolon hEle (by decide)
              rw [he3]
              rcases hx4 : Parser.expect ts pos4 .Semicolon with e | pos5
              · exact ⟨rfl, True.intro⟩
              · exact ⟨rfl, he3le pos5 hx4⟩
        all_goals exact ⟨rfl, True.intro⟩
    · intro pos hpos
      simp only [Parser.parse_if_stmt]
      obtain ⟨he1, he1le⟩ := expect_append ts pos .If hpos (by decide)
      rw [he1]
      rcases hx1 : Parser.expect ts pos .If with e | pos1
      · exact ⟨rfl, True.intro⟩
      · dsimp only
        obtain ⟨he2, he2le⟩ := expect_append ts pos1 .LParen (he1le pos1 hx1) (by decide)
        rw [he2]
        rcases hx2 : Parser.expect ts pos1 .LParen with e | pos2
        · exact ⟨rfl, True.intro⟩
        · dsimp only
          obtain ⟨hE, hEle⟩ := ihExpr pos2 (he2le pos2 hx2)
          rw [hE]
          rcases hx3 : Parser.parse_expr ts fuel pos2 with _ | e | ⟨condition, pos3⟩
          · exact ⟨rfl, True.intro⟩
          · exact ⟨rfl, True.intro⟩
          · dsimp only
            rw [hx3] at hEle
            obtain ⟨he3, he3le⟩ := expect_append ts pos3 .RParen hEle (by decide)
            rw [he3]
            rcases hx4 : Parser.expect ts pos3 .RParen with e | pos4
            · exact ⟨rfl, True.intro⟩
            · dsimp only
              obtain ⟨hS, hSle⟩ := ihStmt pos4 (he3le pos4 hx4)
              rw [hS]
              rcases hx5 : Parser.parse_stmt ts fuel pos4 with _ | e | ⟨thenBranch, pos5⟩
              · exact ⟨rfl, True.intro⟩
              · exact ⟨rfl, True.intro⟩
              · dsimp only
                rw [hx5] at hSle
                rw [current_append ts pos5 hSle]
                by_cases hc : Parser.current ts pos5 = .Else
                · rw [if_pos hc, if_pos hc]
                  have hlt : pos5 < ts.length :=
                    current_ne_eof_lt ts pos5 hSle (by rw [hc]; simp)
                  obtain ⟨ha1, ha2⟩ := advance_inside ts pos5 hlt
                  rw [ha1, ha2]
                  obtain ⟨hS2, hS2le⟩ := ihStmt (pos5 + 1) hlt
                  rw [hS2]
                  rcases hx6 : Parser.parse_stmt ts fuel (pos5 + 1)
                    with _ | e | ⟨elseBranch, pos6⟩
                  · exact ⟨rfl, True.intro⟩
                  · exact ⟨rfl, True.intro⟩
                  · dsimp only
                    rw [hx6] at hS2le
                    exact ⟨rfl, hS2le⟩
                · rw [if_neg hc, if_neg hc]
                  exact ⟨rfl, hSle⟩
    · intro pos hpos
      simp only [Parser.parse_while_stmt]
      obtain ⟨he1, he1le⟩ := expect_append ts pos .While hpos (by decide)
      rw [he1]
      rcases hx1 : Parser.expect ts pos .While with e | pos1
      · exact ⟨rfl, True.intro⟩
      · dsimp only
        obtain ⟨he2, he2le⟩ := expect_append ts pos1 .LParen (he1le pos1 hx1) (by decide)
        rw [he2]
        rcases hx2 : Parser.expect ts pos1 .LParen with e | pos2
        · exact ⟨rfl, True.intro⟩
        · dsimp only
          obtain ⟨hE, hEle⟩ := ihExpr pos2 (he2le pos2 hx2)
          rw [hE]
          rcases hx3 : Parser.parse_expr ts fuel pos2 with _ | e | ⟨condition, pos3⟩
          · exact ⟨rfl, True.intro⟩
          · exact ⟨rfl, True.intro⟩
          · dsimp only
            rw [hx3] at hEle
            obtain ⟨he3, he3le⟩ := expect_append ts pos3 .RParen hEle (by decide)
            rw [he3]
            rcases hx4 : Parser.expect ts pos3 .RParen with e | pos4
            · exact ⟨rfl, True.intro⟩
            · dsimp only
              obtain ⟨hS, hSle⟩ := ihStmt pos4 (he3le pos4 hx4)
              rw [hS]
              rcases hx5 : Parser.parse_stmt ts fuel pos4 with _ | e | ⟨body, pos5⟩
              · exact ⟨rfl, True.intro⟩
              · exact ⟨rfl, True.intro⟩
              · dsimp only
                rw [hx5] at hSle
                exact ⟨rfl, hSle⟩
    · intro pos hpos
      simp only [Parser.parse_return_stmt]
      obtain ⟨he1, he1le⟩ := expect_append ts pos .Return hpos (by decide)
      rw [he1]
      rcases hx1 : Parser.expect ts pos .Return with e | pos1
      · exact ⟨rfl, True.intro⟩
      · dsimp only
        obtain ⟨hE, hEle⟩ := ihExpr pos1 (he1le pos1 hx1)
        rw [hE]
        rcases hx2 : Parser.parse_expr ts fuel pos1 with _ | e | ⟨expr, pos2⟩
        · exact ⟨rfl, True.intro⟩
        · exact ⟨rfl, True.intro⟩
        · dsimp only
          rw [hx2] at hEle
          obtain ⟨he2, he2le⟩ := expect_append ts pos2 .Semicolon hEle (by decide)
          rw [he2]
          rcases hx3 : Parser.expect ts pos2 .Semicolon with e | pos3
          · exact ⟨rfl, True.intro⟩
          · exact ⟨rfl, he2le pos3 hx3⟩
    · intro pos hpos
      simp only [Parser.parse_block]
      obtain ⟨he1, he1le⟩ := expect_append ts pos .LBrace hpos (by decide)
      rw [he1]
      rcases hx1 : Parser.expect ts pos .LBrace with e | pos1
      · exact ⟨rfl, True.intro⟩
      · dsimp only
        exact ihBlockLoop [] pos1 (he1le pos1 hx1)
    · intro acc pos hpos
      simp only [Parser.block_loop]
      rw [current_append ts pos hpos]
      by_cases hc : Parser.current ts pos ≠ .RBrace
      · rw [if_pos hc, if_pos hc]
        obtain ⟨hS, hSle⟩ := ihStmt pos hpos
        rw [hS]
        rcases hx : Parser.parse_stmt ts fuel pos with _ | e | ⟨s, pos1⟩
        · exact ⟨rfl, True.intro⟩
        · exact ⟨rfl, True.intro⟩
        · rw [hx] at hSle
          exact ihBlockLoop (acc ++ [s]) pos1 hSle
      · rw [if_neg hc, if_neg hc]
        obtain ⟨he, hele⟩ := expect_append ts pos .RBrace hpos (by decide)
        rw [he]
        rcases hx : Parser.expect ts pos .RBrace with e | pos1
        · exact ⟨rfl, True.intro⟩
        · exact ⟨rfl, hele pos1 hx⟩
    · intro pos hpos
      simp only [Parser.parse_expr_stmt]
      obtain ⟨hE, hEle⟩ := ihExpr pos hpos
      rw [hE]
      rcases hx : Parser.parse_expr ts fuel pos with _ | e | ⟨expr, pos1⟩
      · exact ⟨rfl, True.intro⟩
      · exact ⟨rfl, True.intro⟩
      · dsimp only
        rw [hx] at hEle
        obtain ⟨he, hele⟩ := expect_append ts pos1 .Semicolon hEle (by decide)
        rw [he]
        rcases hx2 : Parser.expect ts pos1 .Semicolon with e | pos2
        · exact ⟨rfl, True.intro⟩
        · exact ⟨rfl, hele pos2 hx2⟩
    · intro pos hpos
      simp only [Parser.parse_expr]
      obtain ⟨hT, hTle⟩ := ihTerm pos hpos
      rw [hT]
      rcases hx : Parser.parse_term ts fuel pos with _ | e | ⟨node, pos1⟩
      · exact ⟨rfl, True.intro⟩
      · exact ⟨rfl, True.intro⟩
      · rw [hx] at hTle
        exact ihExprLoop node pos1 hTle
    · intro node pos hpos
      simp only [Parser.expr_loop]
      rw [current_append ts pos hpos]
      cases hc : Parser.current ts pos <;>
        first
          | exact ⟨rfl, hpos⟩
          | (dsimp only
             have hlt : pos < ts.length :=
               current_ne_eof_lt ts pos hpos (by rw [hc]; simp)
             obtain ⟨ha1, ha2⟩ := advance_inside ts pos hlt
             rw [ha1, ha2]
             obtain ⟨hT, hTle⟩ := ihTerm (pos + 1) hlt
             rw [hT]
             rcases hx : Parser.parse_term ts fuel (pos + 1) with _ | e | ⟨right, pos1⟩
             · exact ⟨rfl, True.intro⟩
             · exact ⟨rfl, True.intro⟩
             · rw [hx] at hTle
               exact ihExprLoop _ pos1 hTle)
    · intro pos hpos
      simp only [Parser.parse_term]
      obtain ⟨hF, hFle⟩ := ihFactor pos hpos
      rw [hF]
      rcases hx : Parser.parse_factor ts fuel pos with _ | e | ⟨node, pos1⟩
      · exact ⟨rfl, True.intro⟩
      · exact ⟨rfl, True.intro⟩
      · rw [hx] at hFle
        exact ihTermLoop node pos1 hFle
    · intro node pos hpos
      simp only [Parser.term_loop]
      rw [current_append ts pos hpos]
      cases hc : Parser.current ts pos <;>
        first
          | exact ⟨rfl, hpos⟩
          | (dsimp only
             have hlt : pos < ts.length :=
               current_ne_eof_lt ts pos hpos (by rw [hc]; simp)
             obtain ⟨ha1, ha2⟩ := advance_inside ts pos hlt
             rw [ha1, ha2]
             obtain ⟨hF, hFle⟩ := ihFactor (pos + 1) hlt
             rw [hF]
             rcases hx : Parser.parse_factor ts fuel (pos + 1) with _ | e | ⟨right, pos1⟩
             · exact ⟨rfl, True.intro⟩
             · exact ⟨rfl, True.intro⟩
             · rw [hx] at hFle
               exact ihTermLoop _ pos1 hFle)
    · intro pos hpos
      simp only [Parser.parse_factor]
      rw [current_append ts pos hpos]
      cases hc : Parser.current ts pos
      case LParen =>
        dsimp only
        have hlt : pos < ts.length :=
          current_ne_eof_lt ts pos hpos (by rw [hc]; simp)
        obtain ⟨ha1, ha2⟩ := advance_inside ts pos hlt
        rw [ha1, ha2]
        obtain ⟨hE, hEle⟩ := ihExpr (pos + 1) hlt
        rw [hE]
        rcases hx : Parser.parse_expr ts fuel (pos + 1) with _ | e | ⟨node, pos1⟩
        · exact ⟨rfl, True.intro⟩
        · exact ⟨rfl, True.intro⟩
        · dsimp only
          rw [hx] at hEle
          obtain ⟨he, hele⟩ := expect_append ts pos1 .RParen hEle (by decide)
          rw [he]
          rcases hx2 : Parser.expect ts pos1 .RParen with e | pos2
          · exact ⟨rfl, True.intro⟩
          · exact ⟨rfl, hele pos2 hx2⟩
      case Identifier name =>
        dsimp only
        have hlt : pos < ts.length :=
          current_ne_eof_lt ts pos hpos (by rw [hc]; simp)
        obtain ⟨ha1, ha2⟩ := advance_inside ts pos hlt
        rw [ha1, ha2]
        exact ⟨rfl, hlt⟩
      case Integer v =>
        dsimp only
        have hlt : pos < ts.length :=
          current_ne_eof_lt ts pos hpos (by rw [hc]; simp)
        obtain ⟨ha1, ha2⟩ := advance_inside ts pos hlt
        rw [ha1, ha2]
        exact ⟨rfl, hlt⟩
      case StringLiteral s =>
        dsimp only
        have hlt : pos < ts.length :=
          current_ne_eof_lt ts pos hpos (by rw [hc]; simp)
        obtain ⟨ha1, ha2⟩ := advance_inside ts pos hlt
        rw [ha1, ha2]
        exact ⟨rfl, hlt⟩
      all_goals exact ⟨rfl, True.intro⟩

/-- Claim C10: `Parser::current` synthesizes `EOF` once the cursor passes
the end of the token vector, so `parse_program` produces the same result
whether or not the token vector ends with the end-of-input marker: for
every token vector `ts` (and any fuel), parsing `ts` equals parsing
`ts ++ [EOF]`, and the driver may pass the token vector with the `EOF`
marker stripped. -/
theorem parse_program_eof_append (ts : List Token) (fuel : Nat) :
    Parser.parse_program (ts ++ [Token.EOF]) fuel 0 = Parser.parse_program ts fuel 0 :=
  ((parse_eof_ext ts fuel).1 0 (Nat.zero_le ts.length)).1

end TinyScript
